import Mathlib

/-!
Shallow embedding of the rule-based card-requirement matching and scoring
engine of `src/card-analyzer-simple.js` (the same matching logic appears in
`src/unnamed/part_002`).  JavaScript strings are Lean `String`s, JS numbers
in this engine are small non-negative integers or exact fractions, embedded
as `Nat` / `ℚ`; `NaN` (from `0/0` on a zero-requirement challenge) is
embedded as `none : Option Nat`.  JS objects become structures; `undefined`
string fields of the malformed-record fallback card are embedded as `""`
(the spec's "all other attributes empty").
-/

/-- Whether `needle` occurs as a contiguous block of `l`. -/
def infixOfChars (needle : List Char) : List Char → Bool
  | [] => needle.isEmpty
  | c :: rest => needle.isPrefixOf (c :: rest) || infixOfChars needle rest

/-- JS `haystack.includes(needle)`: substring containment. -/
def strContains (haystack needle : String) : Bool :=
  infixOfChars needle.toList haystack.toList

/-- JS `toLowerCase()` on the ASCII range, character-wise over the string's
characters (the names and rarity texts of this engine are ASCII). -/
def toLowerStr (s : String) : String :=
  String.mk (s.toList.map Char.toLower)

/-- Fuel-driven worker for `splitOnStr`; the fuel starts at the text's
length, which bounds the number of steps. -/
def splitAuxF (sep : List Char) : Nat → List Char → List Char → List (List Char)
  | _, [], acc => [acc.reverse]
  | 0, l, acc => [acc.reverse ++ l]
  | fuel + 1, c :: rest, acc =>
      if sep.isPrefixOf (c :: rest) then
        acc.reverse :: splitAuxF sep fuel (List.drop (sep.length - 1) rest) []
      else
        splitAuxF sep fuel rest (c :: acc)

/-- JS `s.split(sep)` for a non-empty separator: split at each
non-overlapping occurrence, left to right, keeping empty pieces. -/
def splitOnStr (s sep : String) : List String :=
  (splitAuxF sep.toList s.toList.length s.toList []).map String.mk

/-- A character JS `trim()` removes (the ASCII whitespace this engine
meets). -/
def wsChar (c : Char) : Bool :=
  c = Char.ofNat 32 || c = Char.ofNat 9 || c = Char.ofNat 10 || c = Char.ofNat 13

/-- JS `s.trim()`: strip leading and trailing whitespace. -/
def trimStr (s : String) : String :=
  String.mk (((s.toList.dropWhile wsChar).reverse.dropWhile wsChar).reverse)

/-- A character kept by the JS cleanup regex `[^a-z0-9]` (applied after
`toLowerCase()`). -/
def isAlnumLower (c : Char) : Bool :=
  (Char.ofNat 97 ≤ c && c ≤ Char.ofNat 122) || (Char.ofNat 48 ≤ c && c ≤ Char.ofNat 57)

/-- JS `name.toLowerCase().replace(/[^a-z0-9]/g, '')`. -/
def cleanName (s : String) : String :=
  String.mk ((toLowerStr s).toList.filter isAlnumLower)

/-- A card of the user's library, as parsed by `getCardLibrary`. -/
structure Card where
  id : Nat
  player_name : String
  play_type : String
  series : String
  team : String
  rarity : String
  original_content : String
deriving DecidableEq, Repr

/-- One required card of a challenge (`required.title`, `required.rarity`). -/
structure RequiredCard where
  title : String
  rarity : String
deriving DecidableEq, Repr

/-- A challenge: metadata plus its required-card list. -/
structure Challenge where
  id : String
  title : String
  required_cards : List RequiredCard
deriving DecidableEq, Repr

/-- A raw library record from the `documents` table: `{ id, content }`. -/
structure RawRecord where
  id : Nat
  content : String
deriving DecidableEq, Repr

/-- The rarity-order table `{ 'Common': 1, 'Rare': 2, 'Legendary': 3 }`;
`none` is JS `undefined` for any other key. -/
def rarityOrder (s : String) : Option Nat :=
  if s = "Common" then some 1
  else if s = "Rare" then some 2
  else if s = "Legendary" then some 3
  else none

/-- JS `a > b` on two lookups into `rarityOrder`: any comparison with
`undefined` is false. -/
def jsGt : Option Nat → Option Nat → Bool
  | some a, some b => a > b
  | _, _ => false

/-- JS `a >= b` on two lookups into `rarityOrder`: any comparison with
`undefined` is false. -/
def jsGe : Option Nat → Option Nat → Bool
  | some a, some b => a ≥ b
  | _, _ => false

/-- `extractRarity(text)`: literal substring search for `Legendary`, then
`Rare`, then `Common`; `null` (here `none`) when none occurs. -/
def extractRarity (text : String) : Option String :=
  if strContains text "Legendary" then some "Legendary"
  else if strContains text "Rare" then some "Rare"
  else if strContains text "Common" then some "Common"
  else none

/-- `rarityMatches(cardRarity, requiredRarity)`: the `or higher tier` branch
compares rarity-order values (`>=`); otherwise case-insensitive substring
containment of the required tier in the card's rarity string. -/
def rarityMatches (cardRarity requiredRarity : String) : Bool :=
  if strContains requiredRarity "or higher tier" then
    let baseRarity := (splitOnStr requiredRarity " ").headD ""
    jsGe (rarityOrder cardRarity) (rarityOrder baseRarity)
  else
    strContains (toLowerStr cardRarity) (toLowerStr requiredRarity)

/-- `matchesRequirement(card, required)`: the exact-match predicate.  The
`2025 NBA Playoffs` series guard first, then the tier check; JS falls back to
`true` when `requiredRarity` is `null` or `cardRarity` is falsy (empty). -/
def matchesRequirement (card : Card) (required : RequiredCard) : Bool :=
  if strContains required.rarity "2025 NBA Playoffs"
      && !strContains card.series "2025" && !strContains card.series "Playoffs" then
    false
  else
    match extractRarity required.rarity with
    | some requiredRarity =>
        if card.rarity = "" then true else rarityMatches card.rarity requiredRarity
    | none => true

/-- `isRarityUpgrade(card, required)`: strictly higher rarity-order value;
false when no tier was extracted or the card's rarity is falsy (empty). -/
def isRarityUpgrade (card : Card) (required : RequiredCard) : Bool :=
  match extractRarity required.rarity with
  | none => false
  | some requiredRarity =>
      if card.rarity = "" then false
      else jsGt (rarityOrder card.rarity) (rarityOrder requiredRarity)

/-- The hard-coded known-NBA-player list of `extractPlayerNames`. -/
def knownPlayers : List String :=
  ["Jalen Williams", "Chet Holmgren", "Shai Gilgeous-Alexander", "Kenrich Williams",
   "Tyrese Haliburton", "Pascal Siakam", "Aaron Nesmith", "Obi Toppin",
   "Karl-Anthony Towns", "Jalen Brunson", "Anthony Edwards", "Nickeil Alexander-Walker",
   "Isaiah Hartenstein", "Miles McBride", "OG Anunoby", "Mitchell Robinson",
   "De'Aaron Fox", "Saddiq Bey", "Buddy Hield", "Daniel Gafford", "Jaden Ivey",
   "Ben Sheppard", "Rudy Gobert", "Julius Randle", "Donte DiVincenzo", "Jaden McDaniels"]

/-- First-occurrence deduplication, the order of JS `[...new Set(found)]`:
`seen` holds the names already emitted. -/
def dedupFirstAux : List String → List String → List String
  | [], _ => []
  | x :: xs, seen =>
      if x ∈ seen then dedupFirstAux xs seen else x :: dedupFirstAux xs (x :: seen)

/-- JS `[...new Set(found)]`. -/
def dedupFirst (l : List String) : List String :=
  dedupFirstAux l []

/-- `extractPlayerNames(text)`: known-player substring scan, the `sga` alias,
and the first-word fallback (first whitespace token, only when no known name
was found and that token is longer than 2 characters). -/
def extractPlayerNames (text : String) : List String :=
  let textLower := toLowerStr text
  let found := knownPlayers.filter (fun player => strContains textLower (toLowerStr player))
  let found := if strContains textLower "sga"
    then found ++ ["Shai Gilgeous-Alexander"] else found
  let found :=
    if found.isEmpty then
      match splitOnStr text " " with
      | [] => found
      | w :: _ => if w.length > 2 then [w] else found
    else found
  dedupFirst found

/-- One new row of the Levenshtein DP (`levRow`), past its first cell:
`diag` is the old row's previous cell, `left` the new row's previous cell. -/
def levNext (c : Char) : List Char → List Nat → Nat → Nat → List Nat
  | [], _, _, _ => []
  | _, [], _, _ => []
  | tc :: ts, o :: os, diag, left =>
      let v := min (left + 1) (min (o + 1) (diag + (if c = tc then 0 else 1)))
      v :: levNext c ts os o v

/-- One full row update of the Levenshtein DP for source character `c`. -/
def levRow (c : Char) (t : List Char) (old : List Nat) : List Nat :=
  match old with
  | [] => []
  | o0 :: rest => (o0 + 1) :: levNext c t rest o0 (o0 + 1)

/-- `levenshteinDistance(str1, str2)`: classic dynamic-programming edit
distance (insert/delete/substitute cost 1), row by row. -/
def levenshteinDistance (s t : List Char) : Nat :=
  (s.foldl (fun row c => levRow c t row) (List.range (t.length + 1))).getLastD 0

/-- `calculateSimilarity(str1, str2)`: `(longer.length - distance) /
longer.length`, `1.0` when both are empty; exact-fraction embedding of the
JS number arithmetic. -/
def calculateSimilarity (str1 str2 : String) : ℚ :=
  let longer := if str1.length > str2.length then str1 else str2
  let shorter := if str1.length > str2.length then str2 else str1
  if longer.length = 0 then 1
  else ((longer.length - levenshteinDistance longer.toList shorter.toList : Nat) : ℚ)
        / (longer.length : ℚ)

/-- The fuzzy-candidate filter of `findMatchingCard`: mutual substring
containment of cleaned names, or similarity above `0.8`. -/
def fuzzyPred (cleanN : String) (card : Card) : Bool :=
  let cardName := cleanName card.player_name
  strContains cardName cleanN || strContains cleanN cardName
    || decide (calculateSimilarity cardName cleanN > (4 : ℚ) / 5)

/-- The record `findMatchingCard` builds: `{ exact_match, rarity_upgrade,
partial_matches }`. -/
structure FindResult where
  exact_match : Option Card
  rarity_upgrade : Option Card
  partial_matches : List Card
deriving DecidableEq, Repr

/-- The bucket `playerLookup[key]`: the library cards whose cleaned player
name equals `key`, in library order (the lookup is built by pushing in
library order).  An absent key is the empty bucket, and every step taken on
an empty bucket below is a no-op, matching the JS `if (playerLookup[...])`
guard. -/
def bucketOf (library : List Card) (key : String) : List Card :=
  library.filter (fun card => cleanName card.player_name = key)

/-- One step of rebuilding a JS `Map` from `[id, card]` entries: an existing
key keeps its position but takes the new value. -/
def upsertById : List (Nat × Card) → Nat → Card → List (Nat × Card)
  | [], k, v => [(k, v)]
  | (k', v') :: rest, k, v =>
      if k = k' then (k', v) :: rest else (k', v') :: upsertById rest k v

/-- JS `[...new Map(list.map(card => [card.id, card])).values()]`:
deduplication by card id, first-occurrence key order, last value wins. -/
def dedupById (l : List Card) : List Card :=
  (l.foldl (fun m card => upsertById m card.id card) []).map (fun p => p.2)

/-- The candidate-name loop of `findMatchingCard`.  For each name: exact
check in the name's bucket (early return on success, before the bucket is
pushed to `partial_matches`), else rarity-upgrade check (a hit OVERWRITES an
earlier one), bucket push, fuzzy scan over the whole library; the
`partial_matches` list is deduplicated only on normal loop exit. -/
def findGo (required : RequiredCard) (library : List Card) :
    List String → FindResult → FindResult
  | [], res => { res with partial_matches := dedupById res.partial_matches }
  | name :: rest, res =>
      let cleanN := cleanName name
      let bucket := bucketOf library cleanN
      match bucket.find? (fun card => matchesRequirement card required) with
      | some card => { res with exact_match := some card }
      | none =>
          let upg := match bucket.find? (fun card => isRarityUpgrade card required) with
            | some u => some u
            | none => res.rarity_upgrade
          let fuzzy := library.filter (fuzzyPred cleanN)
          findGo required library rest
            { exact_match := res.exact_match
              rarity_upgrade := upg
              partial_matches := res.partial_matches ++ bucket ++ fuzzy }

/-- `findMatchingCard(required, library, playerLookup)`. -/
def findMatchingCard (required : RequiredCard) (library : List Card) : FindResult :=
  findGo required library (extractPlayerNames required.title)
    { exact_match := none, rarity_upgrade := none, partial_matches := [] }

/-- The four mutually exclusive per-requirement outcomes of
`analyzeChallenge`. -/
inductive MatchStatus where
  | exact_match
  | rarity_upgrade
  | potential_match
  | missing
deriving DecidableEq, Repr

/-- The status `analyzeChallenge` assigns one requirement: the if/else-if
chain over the `findMatchingCard` result. -/
def classify (required : RequiredCard) (library : List Card) : MatchStatus :=
  let result := findMatchingCard required library
  if result.exact_match.isSome then .exact_match
  else if result.rarity_upgrade.isSome then .rarity_upgrade
  else if result.partial_matches.isEmpty then .missing
  else .potential_match

/-- The fields of the `analyzeChallenge` return value that the claims are
about; `completion_percentage` is `none` for the `NaN` a zero-requirement
challenge produces (`Math.round((0 / 0) * 100)`). -/
structure AnalysisResult where
  can_complete : Bool
  completion_percentage : Option Nat
  exact_matches : Nat
  rarity_upgrades : Nat
  potential_matches : Nat
  missing : Nat
deriving DecidableEq, Repr

/-- `Math.round((totalMatches / n) * 100)` in exact arithmetic: `NaN`
(`none`) when `n = 0`, else half-up rounding, `⌊(200m + n) / (2n)⌋`. -/
def completionPercentage (totalMatches n : Nat) : Option Nat :=
  if n = 0 then none else some ((200 * totalMatches + n) / (2 * n))

/-- The analysis core of `analyzeChallenge(challengeId)` (the surrounding
database fetches are external): classify every required card, then
aggregate counts, `can_complete` and `completion_percentage`. -/
def analyzeChallenge (challenge : Challenge) (library : List Card) : AnalysisResult :=
  let statuses := challenge.required_cards.map (fun required => classify required library)
  let exactCount := statuses.countP (fun s => s = MatchStatus.exact_match)
  let upgradeCount := statuses.countP (fun s => s = MatchStatus.rarity_upgrade)
  let totalMatches := exactCount + upgradeCount
  let n := challenge.required_cards.length
  { can_complete := totalMatches = n
    completion_percentage := completionPercentage totalMatches n
    exact_matches := exactCount
    rarity_upgrades := upgradeCount
    potential_matches := statuses.countP (fun s => s = MatchStatus.potential_match)
    missing := statuses.countP (fun s => s = MatchStatus.missing) }

/-- The per-record parsing step of `getCardLibrary`: split on `" - "`; with
at least 3 segments build the structured card (series and team from the
third segment split on `", "`, rarity inferred from the series text), else
the `Unknown` fallback card.  The JS fallback object simply omits the other
fields (`undefined`); they are embedded as `""`. -/
def parseCard (record : RawRecord) : Card :=
  let parts := splitOnStr record.content " - "
  if parts.length ≥ 3 then
    let playerName := trimStr (parts.getD 0 "")
    let playType := trimStr (parts.getD 1 "")
    let remaining := trimStr (parts.getD 2 "")
    let remainingParts := splitOnStr remaining ", "
    let series := remainingParts.getD 1 ""
    let team := remainingParts.getD 2 ""
    { id := record.id
      player_name := playerName
      play_type := playType
      series := series
      team := team
      rarity := if strContains series "Metallic Gold" then "Rare"
                else if strContains series "LE" then "Rare" else "Common"
      original_content := record.content }
  else
    { id := record.id
      player_name := "Unknown"
      play_type := ""
      series := ""
      team := ""
      rarity := ""
      original_content := record.content }

/-- The parsing loop of `getCardLibrary` (`(data || []).map(card => ...)`);
the database fetch itself is external. -/
def getCardLibrary (records : List RawRecord) : List Card :=
  records.map parseCard

/-- The rarity-upgrade value the candidate loop leaves behind when no bucket
produced an exact match: each candidate name whose bucket holds an upgrade
overwrites the previous value, so the LAST such candidate's first bucket
upgrade remains. -/
def scanUpgrade (required : RequiredCard) (library : List Card)
    (names : List String) : Option Card :=
  names.foldl
    (fun acc name =>
      match (bucketOf library (cleanName name)).find?
          (fun card => isRarityUpgrade card required) with
      | some u => some u
      | none => acc)
    none

/-- The exact-match lookup one candidate name contributes: the first card of
its bucket satisfying the exact-match predicate. -/
def exactFind (required : RequiredCard) (library : List Card) (name : String) : Option Card :=
  (bucketOf library (cleanName name)).find? (fun card => matchesRequirement card required)

/-- The rarity-upgrade lookup one candidate name contributes. -/
def upgradeFind (required : RequiredCard) (library : List Card) (name : String) : Option Card :=
  (bucketOf library (cleanName name)).find? (fun card => isRarityUpgrade card required)

theorem findGo_exact_isSome (required : RequiredCard) (library : List Card) :
    ∀ (names : List String) (res : FindResult),
    (findGo required library names res).exact_match.isSome
      = (res.exact_match.isSome
          || names.any fun n => (exactFind required library n).isSome) := by
  intro names
  induction names with
  | nil => intro res; simp [findGo]
  | cons name rest ih =>
      intro res
      cases hfind : (bucketOf library (cleanName name)).find?
          (fun card => matchesRequirement card required) with
      | some card => simp [findGo, hfind, exactFind]
      | none => simp [findGo, hfind, exactFind, ih]

theorem findGo_upgrade_isSome (required : RequiredCard) (library : List Card) :
    ∀ (names : List String) (res : FindResult),
    (∀ n ∈ names, exactFind required library n = none) →
    (findGo required library names res).rarity_upgrade.isSome
      = (res.rarity_upgrade.isSome
          || names.any fun n => (upgradeFind required library n).isSome) := by
  intro names
  induction names with
  | nil => intro res _; simp [findGo]
  | cons name rest ih =>
      intro res hall
      have hhead : exactFind required library name = none := hall name (by simp)
      have hrest : ∀ n ∈ rest, exactFind required library n = none := by
        intro n hn; exact hall n (by simp [hn])
      rw [exactFind] at hhead
      cases hupg : (bucketOf library (cleanName name)).find?
          (fun card => isRarityUpgrade card required) with
      | some u =>
          simp [findGo, hhead, hupg, ih _ hrest, upgradeFind]
      | none =>
          simp [findGo, hhead, hupg, ih _ hrest, upgradeFind]

theorem findGo_upgrade_eq (required : RequiredCard) (library : List Card) :
    ∀ (names : List String) (res : FindResult),
    (∀ n ∈ names, exactFind required library n = none) →
    (findGo required library names res).rarity_upgrade
      = names.foldl
          (fun acc name =>
            match (bucketOf library (cleanName name)).find?
                (fun card => isRarityUpgrade card required) with
            | some u => some u
            | none => acc)
          res.rarity_upgrade := by
  intro names
  induction names with
  | nil => intro res _; simp [findGo]
  | cons name rest ih =>
      intro res hall
      have hhead : exactFind required library name = none := hall name (by simp)
      have hrest : ∀ n ∈ rest, exactFind required library n = none := by
        intro n hn; exact hall n (by simp [hn])
      rw [exactFind] at hhead
      cases hupg : (bucketOf library (cleanName name)).find?
          (fun card => isRarityUpgrade card required) with
      | some u => simp [findGo, hhead, hupg, ih _ hrest]
      | none => simp [findGo, hhead, hupg, ih _ hrest]

/-- `classify` answers `exact_match` exactly when the loop found an exact
match. -/
theorem classify_eq_exact_iff (required : RequiredCard) (library : List Card) :
    classify required library = MatchStatus.exact_match
      ↔ (findMatchingCard required library).exact_match.isSome = true := by
  unfold classify
  cases hex : (findMatchingCard required library).exact_match.isSome
  · cases hupg : (findMatchingCard required library).rarity_upgrade.isSome <;>
      cases hpart : (findMatchingCard required library).partial_matches.isEmpty <;>
        simp [hex, hupg, hpart]
  · simp [hex]

/-- `classify` answers a matched status (exact or upgrade) exactly when the
loop left an exact match or a rarity upgrade behind. -/
theorem classify_matched_iff (required : RequiredCard) (library : List Card) :
    (classify required library = MatchStatus.exact_match
        ∨ classify required library = MatchStatus.rarity_upgrade)
      ↔ ((findMatchingCard required library).exact_match.isSome
          || (findMatchingCard required library).rarity_upgrade.isSome) = true := by
  unfold classify
  cases hex : (findMatchingCard required library).exact_match.isSome
  · cases hupg : (findMatchingCard required library).rarity_upgrade.isSome <;>
      cases hpart : (findMatchingCard required library).partial_matches.isEmpty <;>
        simp [hex, hupg, hpart]
  · simp [hex]

/-- Appending a card to the library appends to each bucket (at most the new
card). -/
theorem bucketOf_append (library : List Card) (c : Card) (key : String) :
    bucketOf (library ++ [c]) key
      = bucketOf library key ++ (if cleanName c.player_name = key then [c] else []) := by
  unfold bucketOf
  rw [List.filter_append]
  congr 1
  by_cases h : cleanName c.player_name = key <;> simp [h]

/-- A successful `find?` survives appending on the right. -/
theorem find?_isSome_append {α : Type} (p : α → Bool) (l₁ l₂ : List α)
    (h : (l₁.find? p).isSome = true) : ((l₁ ++ l₂).find? p).isSome = true := by
  rw [List.find?_append]
  cases hf : l₁.find? p with
  | none => rw [hf] at h; simp at h
  | some x => simp [hf]

/-- A candidate name's exact lookup stays successful when the library grows
by one card. -/
theorem exactFind_mono (required : RequiredCard) (library : List Card) (c : Card)
    (name : String) (h : (exactFind required library name).isSome = true) :
    (exactFind required (library ++ [c]) name).isSome = true := by
  unfold exactFind at h ⊢
  rw [bucketOf_append]
  exact find?_isSome_append _ _ _ h

/-- A candidate name's upgrade lookup stays successful when the library
grows by one card. -/
theorem upgradeFind_mono (required : RequiredCard) (library : List Card) (c : Card)
    (name : String) (h : (upgradeFind required library name).isSome = true) :
    (upgradeFind required (library ++ [c]) name).isSome = true := by
  unfold upgradeFind at h ⊢
  rw [bucketOf_append]
  exact find?_isSome_append _ _ _ h

/-- An exact match survives library growth. -/
theorem findMatchingCard_exact_mono (required : RequiredCard) (library : List Card)
    (c : Card) (h : (findMatchingCard required library).exact_match.isSome = true) :
    (findMatchingCard required (library ++ [c])).exact_match.isSome = true := by
  unfold findMatchingCard at h ⊢
  rw [findGo_exact_isSome] at h ⊢
  simp only [Option.isSome_none, Bool.false_or] at h ⊢
  rw [List.any_eq_true] at h ⊢
  obtain ⟨n, hn, hsome⟩ := h
  exact ⟨n, hn, exactFind_mono required library c n hsome⟩

/-- A matched requirement (exact or upgrade) stays matched when the library
grows by one card. -/
theorem findMatchingCard_matched_mono (required : RequiredCard) (library : List Card)
    (c : Card)
    (h : ((findMatchingCard required library).exact_match.isSome
          || (findMatchingCard required library).rarity_upgrade.isSome) = true) :
    ((findMatchingCard required (library ++ [c])).exact_match.isSome
        || (findMatchingCard required (library ++ [c])).rarity_upgrade.isSome) = true := by
  rw [Bool.or_eq_true] at h ⊢
  rcases h with hex | hupg
  · exact Or.inl (findMatchingCard_exact_mono required library c hex)
  · by_cases hex2 : (findMatchingCard required (library ++ [c])).exact_match.isSome = true
    · exact Or.inl hex2
    · refine Or.inr ?_
      have hnone2 : ∀ n ∈ extractPlayerNames required.title,
          exactFind required (library ++ [c]) n = none := by
        intro n hn
        cases hf : exactFind required (library ++ [c]) n with
        | none => rfl
        | some x =>
            exfalso
            apply hex2
            unfold findMatchingCard
            rw [findGo_exact_isSome]
            simp only [Option.isSome_none, Bool.false_or]
            rw [List.any_eq_true]
            exact ⟨n, hn, by simp [hf]⟩
      have hnone1 : ∀ n ∈ extractPlayerNames required.title,
          exactFind required library n = none := by
        intro n hn
        cases hf : exactFind required library n with
        | none => rfl
        | some x =>
            have : (exactFind required (library ++ [c]) n).isSome = true :=
              exactFind_mono required library c n (by simp [hf])
            rw [hnone2 n hn] at this
            simp at this
      unfold findMatchingCard at hupg ⊢
      rw [findGo_upgrade_isSome _ _ _ _ hnone2]
      rw [findGo_upgrade_isSome _ _ _ _ hnone1] at hupg
      simp only [Option.isSome_none, Bool.false_or] at hupg ⊢
      rw [List.any_eq_true] at hupg ⊢
      obtain ⟨n, hn, hsome⟩ := hupg
      exact ⟨n, hn, upgradeFind_mono required library c n hsome⟩

/-- A matched status: counted toward `totalMatches`. -/
def isMatchedStatus : MatchStatus → Bool
  | .exact_match => true
  | .rarity_upgrade => true
  | _ => false

theorem isMatchedStatus_iff (s : MatchStatus) :
    isMatchedStatus s = true
      ↔ (s = MatchStatus.exact_match ∨ s = MatchStatus.rarity_upgrade) := by
  cases s <;> simp [isMatchedStatus]

theorem statusCounts_sum (l : List MatchStatus) :
    l.countP (fun s => s = MatchStatus.exact_match)
      + l.countP (fun s => s = MatchStatus.rarity_upgrade)
      + l.countP (fun s => s = MatchStatus.potential_match)
      + l.countP (fun s => s = MatchStatus.missing)
      = l.length := by
  induction l with
  | nil => rfl
  | cons s rest ih => cases s <;> simp [List.countP_cons] <;> omega

theorem countP_exact_add_upgrade (l : List MatchStatus) :
    l.countP (fun s => s = MatchStatus.exact_match)
      + l.countP (fun s => s = MatchStatus.rarity_upgrade)
      = l.countP isMatchedStatus := by
  induction l with
  | nil => rfl
  | cons s rest ih => cases s <;> simp [List.countP_cons, isMatchedStatus] <;> omega

/-- A library card whose player name is itself a candidate and which
satisfies the exact-match predicate forces the `exact_match`
classification. -/
theorem classify_exact_of_qualifying (required : RequiredCard) (library : List Card)
    (card : Card) (hmem : card ∈ library)
    (hname : card.player_name ∈ extractPlayerNames required.title)
    (hq : matchesRequirement card required = true) :
    classify required library = MatchStatus.exact_match := by
  rw [classify_eq_exact_iff]
  unfold findMatchingCard
  rw [findGo_exact_isSome]
  simp only [Option.isSome_none, Bool.false_or]
  rw [List.any_eq_true]
  refine ⟨card.player_name, hname, ?_⟩
  unfold exactFind
  rw [List.find?_isSome]
  exact ⟨card, List.mem_filter.2 ⟨hmem, by simp [bucketOf]⟩, hq⟩

/-- C9: a library record whose content splits into fewer than three
`" - "` segments parses to the `Unknown` fallback card that preserves the
raw text, without failing, and the batch map continues over the remaining
records unchanged. -/
theorem C9_malformed_record_degrades (pre post : List RawRecord) (record : RawRecord)
    (h : (splitOnStr record.content " - ").length < 3) :
    (parseCard record).player_name = "Unknown"
      ∧ (parseCard record).original_content = record.content
      ∧ getCardLibrary (pre ++ record :: post)
          = getCardLibrary pre ++ parseCard record :: getCardLibrary post := by
  refine ⟨?_, ?_, ?_⟩
  · simp only [parseCard]
    rw [if_neg (by omega)]
  · simp only [parseCard]
    split <;> rfl
  · unfold getCardLibrary
    rw [List.map_append, List.map_cons]

/-- C9 witness: the record `"justonestring"` of Scenario E. -/
theorem C9_witness :
    ((splitOnStr "justonestring" " - ").length < 3)
      ∧ ((parseCard { id := 7, content := "justonestring" }).player_name = "Unknown"
          ∧ (parseCard { id := 7, content := "justonestring" }).original_content
              = "justonestring"
          ∧ getCardLibrary ([] ++ { id := 7, content := "justonestring" } :: [])
              = getCardLibrary []
                  ++ parseCard { id := 7, content := "justonestring" } :: getCardLibrary []) :=
  ⟨by decide, C9_malformed_record_degrades [] [] { id := 7, content := "justonestring" }
    (by decide)⟩

/-- C10: every requirement receives exactly one of the four statuses, so the
four reported counts always sum to the number of requirements. -/
theorem C10_counts_partition (challenge : Challenge) (library : List Card) :
    (analyzeChallenge challenge library).exact_matches
      + (analyzeChallenge challenge library).rarity_upgrades
      + (analyzeChallenge challenge library).potential_matches
      + (analyzeChallenge challenge library).missing
      = challenge.required_cards.length := by
  have h := statusCounts_sum
    (challenge.required_cards.map (fun required => classify required library))
  simpa [analyzeChallenge] using h

/-- The zero-requirement challenge of claim C1. -/
def emptyChallenge : Challenge := { id := "c0", title := "empty", required_cards := [] }

/-- C1 counterexample: on a zero-requirement challenge the code computes
`Math.round((0 / 0) * 100)`, i.e. `NaN` (embedded as `none`), not the 100
the claim states. -/
theorem C1_counterexample :
    (analyzeChallenge emptyChallenge []).completion_percentage ≠ some 100 := by
  decide

/-- C1 amended: a zero-requirement challenge yields `canComplete = true` and
no failure, but its completion percentage is the `NaN` of `0 / 0` (`none`),
not 100. -/
theorem C1_amended_zero_requirements (challenge : Challenge) (library : List Card)
    (h : challenge.required_cards = []) :
    (analyzeChallenge challenge library).can_complete = true
      ∧ (analyzeChallenge challenge library).completion_percentage = none := by
  simp [analyzeChallenge, completionPercentage, h]

/-- C1 amended witness. -/
theorem C1_amended_witness :
    emptyChallenge.required_cards = []
      ∧ ((analyzeChallenge emptyChallenge []).can_complete = true
          ∧ (analyzeChallenge emptyChallenge []).completion_percentage = none) :=
  ⟨rfl, C1_amended_zero_requirements emptyChallenge [] rfl⟩

/-- C4 counterexample: `"ab cde"` is non-empty and holds the token `"cde"`
of length 3, yet the Name Resolver returns no candidate, because the
fallback only ever considers the FIRST whitespace token (here `"ab"`, too
short). -/
theorem C4_counterexample :
    extractPlayerNames "ab cde" = []
      ∧ ("ab cde" : String) ≠ ""
      ∧ (splitOnStr "ab cde" " ").any (fun w => w.length > 2) = true := by
  refine ⟨by decide, by decide, by decide⟩

theorem dedupFirst_ne_nil (l : List String) (h : l ≠ []) : dedupFirst l ≠ [] := by
  cases l with
  | nil => exact absurd rfl h
  | cons x xs => simp [dedupFirst, dedupFirstAux]

/-- C4 amended: the Name Resolver returns at least one candidate name for
every requirement title whose FIRST whitespace-delimited token is longer
than 2 characters; a non-empty title whose first token is 2 characters or
shorter can yield the empty sequence even when a later token is longer, so
emptiness is not limited to degenerate (very short or empty) input. -/
theorem C4_amended_first_token (text : String)
    (h : ((splitOnStr text " ").headD "").length > 2) :
    extractPlayerNames text ≠ [] := by
  simp only [extractPlayerNames]
  apply dedupFirst_ne_nil
  by_cases hsga : strContains (toLowerStr text) "sga" = true
  · simp [hsga]
  · simp only [hsga, if_neg, Bool.false_eq_true, ite_false]
    cases hsplit : splitOnStr text " " with
    | nil => rw [hsplit] at h; simp at h
    | cons w ws =>
        rw [hsplit] at h
        simp only [List.headD_cons] at h
        cases hempty : (List.filter
            (fun player => strContains (toLowerStr text) (toLowerStr player))
            knownPlayers).isEmpty with
        | false =>
            simp only [hempty, Bool.false_eq_true, ite_false]
            intro hnil
            rw [hnil] at hempty
            simp at hempty
        | true =>
            simp [hempty, h]

/-- C4 amended witness. -/
theorem C4_amended_witness :
    ((splitOnStr "Doncic Common Moment" " ").headD "").length > 2
      ∧ extractPlayerNames "Doncic Common Moment" ≠ [] :=
  ⟨by decide, C4_amended_first_token "Doncic Common Moment" (by decide)⟩

/-- A higher-rarity card of claim C5's counterexample. -/
def cardRareC5 : Card :=
  { id := 10, player_name := "Player X", play_type := "", series := "", team := "",
    rarity := "Rare", original_content := "" }

/-- A lower-rarity card of claim C5's counterexample. -/
def cardCommonC5 : Card :=
  { id := 11, player_name := "Player X", play_type := "", series := "", team := "",
    rarity := "Common", original_content := "" }

/-- The plain-`Common` requirement of claim C5's counterexample. -/
def reqC5 : RequiredCard := { title := "Player X Moment", rarity := "Common" }

/-- C5 counterexample: with a plain `Common` tier requirement (no
`or higher tier` modifier) the exact-match predicate is substring
containment, so the strictly higher `Rare` card fails where the `Common`
card succeeds — upward compatibility breaks. -/
theorem C5_counterexample :
    jsGt (rarityOrder cardRareC5.rarity) (rarityOrder cardCommonC5.rarity) = true
      ∧ matchesRequirement cardCommonC5 reqC5 = true
      ∧ matchesRequirement cardRareC5 reqC5 = false := by
  refine ⟨by decide, by decide, by decide⟩

/-- C5 amended: upward compatibility of rarity tiers holds exactly on the
`or higher tier` branch of `rarityMatches`: when the required-rarity string
carries that modifier, any card of strictly higher rarity order than a
qualifying card also qualifies. -/
theorem C5_amended_or_higher (cardA cardB requiredRarity : String) (a b : Nat)
    (ha : rarityOrder cardA = some a) (hb : rarityOrder cardB = some b)
    (hab : a > b)
    (hmod : strContains requiredRarity "or higher tier" = true)
    (hB : rarityMatches cardB requiredRarity = true) :
    rarityMatches cardA requiredRarity = true := by
  simp only [rarityMatches, hmod, if_true] at hB ⊢
  rw [hb] at hB
  rw [ha]
  cases hbase : rarityOrder ((splitOnStr requiredRarity " ").headD "") with
  | none => rw [hbase] at hB; simp [jsGe] at hB
  | some rv =>
      rw [hbase] at hB
      simp only [jsGe, decide_eq_true_eq] at hB ⊢
      omega

/-- C5 amended witness: `Common` qualifies for `"Common or higher tier"`,
hence so does `Rare`. -/
theorem C5_amended_witness :
    rarityOrder "Rare" = some 2 ∧ rarityOrder "Common" = some 1 ∧ 2 > 1
      ∧ strContains "Common or higher tier" "or higher tier" = true
      ∧ rarityMatches "Common" "Common or higher tier" = true
      ∧ rarityMatches "Rare" "Common or higher tier" = true :=
  ⟨by decide, by decide, by decide, by decide, by decide,
    C5_amended_or_higher "Rare" "Common" "Common or higher tier" 2 1
      (by decide) (by decide) (by decide) (by decide) (by decide)⟩

/-- C2: a requirement whose title surfaces a library card's player name as a
candidate, where that card satisfies the exact-match predicate, is always
classified `exact_match` — never `potential_match` or `missing`. -/
theorem C2_priority_exact (required : RequiredCard) (library : List Card) (card : Card)
    (hmem : card ∈ library)
    (hname : card.player_name ∈ extractPlayerNames required.title)
    (hq : matchesRequirement card required = true) :
    classify required library = MatchStatus.exact_match :=
  classify_exact_of_qualifying required library card hmem hname hq

/-- The requirement of the C2 witness. -/
def reqC2W : RequiredCard := { title := "Pascal Siakam Common Moment", rarity := "Common" }

/-- The qualifying card of the C2 witness. -/
def cardC2W : Card :=
  { id := 21, player_name := "Pascal Siakam", play_type := "Dunk", series := "Base",
    team := "IND", rarity := "Common", original_content := "" }

/-- C2 witness. -/
theorem C2_witness :
    cardC2W ∈ [cardC2W]
      ∧ cardC2W.player_name ∈ extractPlayerNames reqC2W.title
      ∧ matchesRequirement cardC2W reqC2W = true
      ∧ classify reqC2W [cardC2W] = MatchStatus.exact_match :=
  ⟨by decide, by decide, by decide,
    C2_priority_exact reqC2W [cardC2W] cardC2W (by decide) (by decide) (by decide)⟩

/-- C8: a requirement whose title is exactly `"SGA"` and a library card with
player name `"Shai Gilgeous-Alexander"` satisfying the exact-match predicate
yield the `exact_match` classification: the alias rule adds the canonical
name to the candidate set. -/
theorem C8_sga_alias (required : RequiredCard) (library : List Card) (card : Card)
    (htitle : required.title = "SGA")
    (hmem : card ∈ library)
    (hname : card.player_name = "Shai Gilgeous-Alexander")
    (hq : matchesRequirement card required = true) :
    classify required library = MatchStatus.exact_match := by
  apply classify_exact_of_qualifying required library card hmem ?_ hq
  rw [htitle, hname]
  decide

/-- The requirement of the C8 witness. -/
def reqC8W : RequiredCard := { title := "SGA", rarity := "Common" }

/-- The canonical-name card of the C8 witness. -/
def cardC8W : Card :=
  { id := 22, player_name := "Shai Gilgeous-Alexander", play_type := "Layup",
    series := "Base", team := "OKC", rarity := "Common", original_content := "" }

/-- C8 witness. -/
theorem C8_witness :
    reqC8W.title = "SGA"
      ∧ cardC8W ∈ [cardC8W]
      ∧ cardC8W.player_name = "Shai Gilgeous-Alexander"
      ∧ matchesRequirement cardC8W reqC8W = true
      ∧ classify reqC8W [cardC8W] = MatchStatus.exact_match :=
  ⟨rfl, by decide, rfl, by decide,
    C8_sga_alias reqC8W [cardC8W] cardC8W rfl (by decide) rfl (by decide)⟩

/-- First-candidate upgrade card of the C3 counterexample. -/
def cardJW : Card :=
  { id := 1, player_name := "Jalen Williams", play_type := "Dunk", series := "LE",
    team := "OKC", rarity := "Rare", original_content := "a" }

/-- Second-candidate upgrade card of the C3 counterexample. -/
def cardCH : Card :=
  { id := 2, player_name := "Chet Holmgren", play_type := "Block", series := "LE",
    team := "OKC", rarity := "Rare", original_content := "b" }

/-- The two-candidate requirement of the C3 counterexample: its title
surfaces `"Jalen Williams"` first, then `"Chet Holmgren"`. -/
def reqC3 : RequiredCard :=
  { title := "Jalen Williams Chet Holmgren Moment", rarity := "Common" }

/-- C3 counterexample: both candidate names' buckets hold a strict upgrade
and no exact match exists, yet the reported upgrade card is the SECOND
candidate's card (id 2), not the first encountered (id 1): each later
candidate's bucket upgrade overwrites the earlier one. -/
theorem C3_counterexample :
    (findMatchingCard reqC3 [cardJW, cardCH]).rarity_upgrade.map Card.id = some 2
      ∧ ¬((findMatchingCard reqC3 [cardJW, cardCH]).rarity_upgrade.map Card.id
            = some 1) := by
  refine ⟨by decide, by decide⟩

/-- C3 amended: when no candidate name's bucket yields an exact match, the
reported rarity-upgrade card is the overwriting scan's result: the LAST
candidate name (in candidate order) whose bucket holds an upgrade wins,
with the first such card in that bucket's order. -/
theorem C3_amended_last_upgrade (required : RequiredCard) (library : List Card)
    (hall : ∀ n ∈ extractPlayerNames required.title,
      exactFind required library n = none) :
    (findMatchingCard required library).rarity_upgrade
      = scanUpgrade required library (extractPlayerNames required.title) := by
  unfold findMatchingCard scanUpgrade
  exact findGo_upgrade_eq required library _ _ hall

/-- C3 amended witness. -/
theorem C3_amended_witness :
    (∀ n ∈ extractPlayerNames reqC3.title, exactFind reqC3 [cardJW, cardCH] n = none)
      ∧ (findMatchingCard reqC3 [cardJW, cardCH]).rarity_upgrade
          = scanUpgrade reqC3 [cardJW, cardCH] (extractPlayerNames reqC3.title) :=
  ⟨by decide, C3_amended_last_upgrade reqC3 [cardJW, cardCH] (by decide)⟩

/-- Growing the library by one card never loses matched requirements:
the matched count over the challenge's requirements is monotone. -/
theorem matchedCount_mono (challenge : Challenge) (library : List Card) (c : Card) :
    (challenge.required_cards.map (fun r => classify r library)).countP
        (fun s => s = MatchStatus.exact_match)
      + (challenge.required_cards.map (fun r => classify r library)).countP
          (fun s => s = MatchStatus.rarity_upgrade)
      ≤ (challenge.required_cards.map (fun r => classify r (library ++ [c]))).countP
          (fun s => s = MatchStatus.exact_match)
        + (challenge.required_cards.map (fun r => classify r (library ++ [c]))).countP
            (fun s => s = MatchStatus.rarity_upgrade) := by
  rw [countP_exact_add_upgrade, countP_exact_add_upgrade, List.countP_map,
    List.countP_map]
  apply List.countP_mono_left
  intro r hr hmatched
  simp only [Function.comp_apply] at hmatched ⊢
  rw [isMatchedStatus_iff] at hmatched ⊢
  rw [classify_matched_iff] at hmatched ⊢
  exact findMatchingCard_matched_mono r library c hmatched

/-- C7: adding to the library one card that exactly satisfies a
previously-missing requirement (with nothing else changed) never decreases
the completion percentage and never moves a previously exact-matched
requirement to a lower-confidence status.  (The proof in fact never needs
the premise: growth by ANY card is monotone.) -/
theorem C7_library_growth_monotone (challenge : Challenge) (library : List Card)
    (c : Card) (r0 : RequiredCard)
    (hr0 : r0 ∈ challenge.required_cards)
    (hmiss : classify r0 library = MatchStatus.missing)
    (hsat : matchesRequirement c r0 = true) :
    (∀ p, (analyzeChallenge challenge library).completion_percentage = some p →
      ∃ q, (analyzeChallenge challenge (library ++ [c])).completion_percentage = some q
        ∧ p ≤ q)
    ∧ (∀ required ∈ challenge.required_cards,
        classify required library = MatchStatus.exact_match →
        classify required (library ++ [c]) = MatchStatus.exact_match) := by
  constructor
  · intro p hp
    simp only [analyzeChallenge, completionPercentage] at hp
    by_cases hn0 : challenge.required_cards.length = 0
    · rw [if_pos hn0] at hp
      exact absurd hp (by simp)
    · rw [if_neg hn0] at hp
      have hp2 := Option.some.inj hp
      have hq : (analyzeChallenge challenge (library ++ [c])).completion_percentage
          = some ((200 * ((challenge.required_cards.map
                  (fun r => classify r (library ++ [c]))).countP
                    (fun s => s = MatchStatus.exact_match)
                + (challenge.required_cards.map
                    (fun r => classify r (library ++ [c]))).countP
                      (fun s => s = MatchStatus.rarity_upgrade))
              + challenge.required_cards.length)
              / (2 * challenge.required_cards.length)) := by
        simp only [analyzeChallenge, completionPercentage]
        rw [if_neg hn0]
      refine ⟨_, hq, ?_⟩
      rw [← hp2]
      apply Nat.div_le_div_right
      have hmono := matchedCount_mono challenge library c
      omega
  · intro required hreq hex
    rw [classify_eq_exact_iff] at hex ⊢
    exact findMatchingCard_exact_mono required library c hex

/-- The previously-missing requirement of the C7 witness. -/
def reqC7W : RequiredCard := { title := "Pascal Siakam Base Moment", rarity := "Common" }

/-- The one-requirement challenge of the C7 witness. -/
def challengeC7W : Challenge :=
  { id := "c7", title := "growth", required_cards := [reqC7W] }

/-- The added card of the C7 witness: it exactly satisfies `reqC7W`. -/
def cardC7W : Card :=
  { id := 23, player_name := "Pascal Siakam", play_type := "Dunk", series := "Base",
    team := "IND", rarity := "Common", original_content := "" }

/-- C7 witness: starting from the empty library, `reqC7W` is missing,
`cardC7W` exactly satisfies it, and the theorem's two monotonicity
conclusions are obtained by applying it there. -/
theorem C7_witness :
    (reqC7W ∈ challengeC7W.required_cards
        ∧ classify reqC7W [] = MatchStatus.missing
        ∧ matchesRequirement cardC7W reqC7W = true)
      ∧ ((∀ p, (analyzeChallenge challengeC7W []).completion_percentage = some p →
            ∃ q, (analyzeChallenge challengeC7W ([] ++ [cardC7W])).completion_percentage
                  = some q
              ∧ p ≤ q)
          ∧ (∀ required ∈ challengeC7W.required_cards,
              classify required [] = MatchStatus.exact_match →
              classify required ([] ++ [cardC7W]) = MatchStatus.exact_match)) :=
  ⟨⟨by decide, by decide, by decide⟩,
    C7_library_growth_monotone challengeC7W [] cardC7W reqC7W
      (by decide) (by decide) (by decide)⟩
